import Mathlib

/-!
Shallow embedding of the slide-transition controller of
`devcon-tilt-carousel.ts` (the `DevconTiltCarousel` custom element) and
proofs about its behaviour.

The embedding mirrors the source structure:
 * `Elem`, `findSlideParent`, `containerMode`, `multiRootSlides` model the
   DOM-shape mode detection (`_findSlideParent`, `_containerMode`,
   `_multiRootSlides`, `_assignedRoots`);
 * `CSlide`, `initContainerMode`, `applyStateContainer`, `cgo` model the
   container-mode inline-style state machine (`_initContainerMode`,
   `_applyStateContainer`, `_go`), including the one-shot `transitionend`
   callback bound to the outgoing slide;
 * `MSlide`, `applyStateMultiRoot`, `mgo` model the multi-root class-toggle
   state machine (`_applyStateMultiRoot`, the multi-root branch of `_go`);
 * `AState`, `astart`, `astop`, `aupdate` model the autoplay timer lifecycle
   (`_start`, `_stop`, `updated`, `disconnectedCallback`);
 * `DNode`, `findWrap`, `ensureWrap` model the slide-wrapper normalizer
   (`_ensureWrap`).
-/

namespace DevconCarousel

/-! ### DOM element trees and mode detection -/

/-- A DOM element, reduced to its tree of element children (the only thing
`_findSlideParent` and `_containerMode` inspect). -/
inductive Elem where
  | mk : List Elem → Elem
deriving Inhabited

/-- The element children of an element (`node.children`). -/
def Elem.children : Elem → List Elem
  | .mk cs => cs

/-- Model of `_findSlideParent`: walk down while the current node has exactly
one element child; stop at the first node with zero or several children. -/
def findSlideParent (root : Elem) : Elem :=
  match root with
  | .mk [c] => findSlideParent c
  | .mk cs => .mk cs

/-- Model of `_assignedRoots`: prefer the named slot's assigned elements when
non-empty, otherwise the default slot's. -/
def assignedRoots (named dflt : List Elem) : List Elem :=
  if named.length ≠ 0 then named else dflt

/-- Model of `_containerMode`: container mode applies only when there is
exactly one assigned root; the slide parent is found by descending, and its
direct element children are the slides. -/
def containerMode (roots : List Elem) : Option (Elem × List Elem) :=
  match roots with
  | [root] => some (findSlideParent root, (findSlideParent root).children)
  | _ => none

/-- Model of `_multiRootSlides`: the assigned roots themselves are the
slides. -/
def multiRootSlides (roots : List Elem) : List Elem :=
  roots

/-- The two operating modes of the widget. -/
inductive Mode where
  | container
  | multiRoot
deriving DecidableEq

/-- The mode branch taken by `_go` given the current assigned roots
(`const container = this._containerMode(); if (container) ...`). -/
def goMode (roots : List Elem) : Mode :=
  if (containerMode roots).isSome then .container else .multiRoot

/-- The mode branch taken by `firstUpdated` given the assigned roots at first
render (the same `if (container)` test). -/
def firstRenderMode (roots : List Elem) : Mode :=
  if (containerMode roots).isSome then .container else .multiRoot

/-- A single-child chain of depth `n` ending in a childless node. -/
def singleChain : Nat → Elem
  | 0 => .mk []
  | n + 1 => .mk [singleChain n]

theorem findSlideParent_singleton (c : Elem) :
    findSlideParent (.mk [c]) = findSlideParent c := by
  rfl

theorem findSlideParent_not_singleton (cs : List Elem)
    (h : cs.length ≠ 1) : findSlideParent (.mk cs) = .mk cs := by
  match cs, h with
  | [], _ => rfl
  | a :: b :: rest, _ => rfl

theorem children_findSlideParent_ne_one (e : Elem) :
    (findSlideParent e).children.length ≠ 1 := by
  induction e using findSlideParent.induct with
  | case1 c ih => rw [findSlideParent_singleton]; exact ih
  | case2 cs h =>
    rw [findSlideParent_not_singleton cs ?hne]
    · exact ?hne
    case hne =>
      intro hlen
      match cs, hlen with
      | [c], _ => exact h c rfl

/-! ### Configuration and transforms -/

/-- The widget's configuration scalars (the reactive properties that affect
the transition logic). -/
structure Config where
  autoplay : Bool
  interval : Nat
  perspective : Int
  tilt : Int
deriving DecidableEq

/-- A transform value produced by `_tf`: `perspective(Ppx) translateX(X%)
rotateY(Ddeg)`, with the translation recorded as a percentage. -/
structure TF where
  perspectivePx : Int
  translateXPct : Int
  rotateYDeg : Int
deriving DecidableEq

/-- Model of `_tf`: bake the configured perspective into every transform. -/
def tf (cfg : Config) (xPct : Int) (deg : Int) : TF :=
  ⟨cfg.perspective, xPct, deg⟩

/-- A `transform-origin` value used by the controller. -/
inductive Origin where
  | center
  | rightEdge
  | leftEdge
deriving DecidableEq

/-! ### Container-mode slide state -/

/-- The inline style/attribute state the controller mutates on a
container-mode slide and its animated wrapper: `zIndex`, `opacity` and
`aria-hidden` on the slide, `transform-origin` and `transform` on the
wrapper. -/
structure CSlide where
  zIndex : Nat
  opacity : Nat
  ariaHidden : Bool
  origin : Origin
  transform : TF
deriving DecidableEq

/-- Default slide used with `List.getD` in statements. -/
def dC : CSlide :=
  ⟨0, 0, false, .center, ⟨0, 0, 0⟩⟩

/-- Apply `f` to the element at position `i`, if any (models mutating
`slides[i]` when it exists). -/
def modifyAt (f : α → α) : Nat → List α → List α
  | _, [] => []
  | 0, a :: as => f a :: as
  | n + 1, a :: as => a :: modifyAt f n as

/-- Apply `f i` to every element, indices starting at `k` (models a
`forEach((s, i) => ...)` loop). -/
def mapIdxF (f : Nat → α → α) : Nat → List α → List α
  | _, [] => []
  | k, a :: as => f k a :: mapIdxF f (k + 1) as

theorem length_modifyAt (f : α → α) (i : Nat) (l : List α) :
    (modifyAt f i l).length = l.length := by
  induction l generalizing i with
  | nil => cases i <;> rfl
  | cons a as ih =>
    cases i with
    | zero => rfl
    | succ n => simp [modifyAt, ih]

theorem getD_modifyAt_self (f : α → α) (i : Nat) (l : List α) (d : α)
    (h : i < l.length) :
    (modifyAt f i l).getD i d = f (l.getD i d) := by
  induction l generalizing i with
  | nil => simp at h
  | cons a as ih =>
    cases i with
    | zero => rfl
    | succ n =>
      simp only [List.length_cons, Nat.succ_lt_succ_iff] at h
      simpa [modifyAt] using ih n h

theorem getD_modifyAt_ne (f : α → α) (i j : Nat) (l : List α) (d : α)
    (h : j ≠ i) :
    (modifyAt f i l).getD j d = l.getD j d := by
  induction l generalizing i j with
  | nil => simp [modifyAt]
  | cons a as ih =>
    cases i with
    | zero =>
      cases j with
      | zero => exact absurd rfl h
      | succ m => rfl
    | succ n =>
      cases j with
      | zero => rfl
      | succ m =>
        simpa [modifyAt] using ih n m (fun hc => h (by rw [hc]))

theorem length_mapIdxF (f : Nat → α → α) (k : Nat) (l : List α) :
    (mapIdxF f k l).length = l.length := by
  induction l generalizing k with
  | nil => rfl
  | cons a as ih => simp [mapIdxF, ih]

theorem getD_mapIdxF (f : Nat → α → α) (k i : Nat) (l : List α) (d : α)
    (h : i < l.length) :
    (mapIdxF f k l).getD i d = f (k + i) (l.getD i d) := by
  induction l generalizing k i with
  | nil => simp at h
  | cons a as ih =>
    cases i with
    | zero => rfl
    | succ n =>
      simp only [List.length_cons, Nat.succ_lt_succ_iff] at h
      have := ih (k + 1) n h
      simpa [mapIdxF, Nat.add_assoc, Nat.add_comm 1 n] using this

/-- Model of `_initContainerMode`: slide 0 becomes active (raised, opaque,
centered origin, identity transform); every other slide is parked hidden,
translated fully right with rotation `-tilt` and origin on its right edge. -/
def initContainerMode (cfg : Config) (slides : List CSlide) : List CSlide :=
  mapIdxF
    (fun i s =>
      if i = 0 then
        { s with zIndex := 2, opacity := 1, origin := .center,
                 transform := tf cfg 0 0, ariaHidden := false }
      else
        { s with zIndex := 1, opacity := 0, origin := .rightEdge,
                 transform := tf cfg 100 (-cfg.tilt), ariaHidden := true })
    0 slides

/-- Model of `_applyStateContainer`, in source order: bring the incoming
slide in, hide every slide that is neither incoming nor outgoing, then drive
the outgoing slide into its exit transform (its `aria-hidden` untouched). -/
def applyStateContainer (cfg : Config) (idx old : Nat)
    (slides : List CSlide) : List CSlide :=
  let s1 := modifyAt
    (fun s =>
      { s with zIndex := 2, opacity := 1, origin := .center,
               transform := tf cfg 0 0, ariaHidden := false })
    idx slides
  let s2 := mapIdxF
    (fun i s =>
      if i ≠ idx ∧ i ≠ old then
        { s with zIndex := 1, opacity := 0, ariaHidden := true }
      else s)
    0 s1
  modifyAt
    (fun s =>
      { s with zIndex := 1, opacity := 1, origin := .leftEdge,
               transform := tf cfg (-70) cfg.tilt })
    old s2

/-- The `propertyName` of a `transitionend` event, as far as the exit
callback's guard cares: `transform` or anything else. -/
inductive TProp where
  | transform
  | otherProp
deriving DecidableEq

/-- A container-mode carousel: configuration, active index, per-slide style
state, the live `transitionend` listeners as `(slide, callbackId)` pairs, a
fresh-id counter, the ids whose callback body has executed, and the
`slide:change` events dispatched so far (new index each). -/
structure CCar where
  cfg : Config
  idx : Nat
  slides : List CSlide
  listeners : List (Nat × Nat)
  nextCb : Nat
  fired : List Nat
  events : List Nat
deriving DecidableEq

/-- Model of the container branch of `_go`: no-op when at most one slide;
otherwise wrap the requested index, restyle every slide, bind one fresh
one-shot exit callback to the outgoing slide, and dispatch `slide:change`. -/
def cgo (c : CCar) (newIndex : Int) : CCar :=
  let count := c.slides.length
  if count ≤ 1 then c
  else
    let old := c.idx
    let idx' := ((newIndex + count).tmod count).toNat
    { c with
        idx := idx'
        slides := applyStateContainer c.cfg idx' old c.slides
        listeners :=
          if old < count then c.listeners ++ [(old, c.nextCb)]
          else c.listeners
        nextCb := if old < count then c.nextCb + 1 else c.nextCb
        events := c.events ++ [idx'] }

/-- Model of `next()` resolved in container mode. -/
def cnext (c : CCar) : CCar :=
  cgo c ((c.idx : Int) + 1)

/-- Model of `prev()` resolved in container mode. -/
def cprev (c : CCar) : CCar :=
  cgo c ((c.idx : Int) - 1)

/-- Model of a `transitionend` event reaching slide `i`: every live callback
bound to that slide runs; each returns early unless the property is
`transform`, and otherwise sets the slide's opacity to 0 and `aria-hidden`,
then unbinds itself. -/
def fireTransitionEnd (c : CCar) (i : Nat) (p : TProp) : CCar :=
  match p with
  | .otherProp => c
  | .transform =>
    let hits := c.listeners.filter (fun l => l.1 == i)
    if hits.isEmpty then c
    else
      { c with
          slides :=
            modifyAt (fun s => { s with opacity := 0, ariaHidden := true })
              i c.slides
          listeners := c.listeners.filter (fun l => !(l.1 == i))
          fired := c.fired ++ hits.map Prod.snd }

/-- Model of `firstUpdated` in container mode: active index 0 and the
initial styling pass; no listeners, no events yet. -/
def cfirstUpdated (cfg : Config) (raw : List CSlide) : CCar :=
  ⟨cfg, 0, initContainerMode cfg raw, [], 0, [], []⟩

/-- The discrete events a container-mode carousel reacts to. -/
inductive COp where
  | goNextOp
  | goPrevOp
  | tendOp (i : Nat) (p : TProp)

/-- One event step. -/
def cstep (c : CCar) : COp → CCar
  | .goNextOp => cnext c
  | .goPrevOp => cprev c
  | .tendOp i p => fireTransitionEnd c i p

/-- Run a sequence of events. -/
def crun (c : CCar) (ops : List COp) : CCar :=
  ops.foldl cstep c

/-- The three visual states of the spec's per-slide state machine. -/
inductive VisualState where
  | Active
  | ExitingPrev
  | Hidden
deriving DecidableEq

/-- Classify a container-mode slide's style state: opaque and raised is
`Active`, opaque and lowered is `ExitingPrev`, transparent is `Hidden`. -/
def cstate (s : CSlide) : VisualState :=
  if s.opacity = 1 ∧ s.zIndex = 2 then .Active
  else if s.opacity = 1 then .ExitingPrev
  else .Hidden

/-! ### Multi-root-mode slide state -/

/-- The class-list/attribute state the controller mutates on a multi-root
slide: the `slide`, `active` and `exit-left` classes and `aria-hidden`. -/
structure MSlide where
  slideCls : Bool
  activeCls : Bool
  exitLeftCls : Bool
  ariaHidden : Bool
deriving DecidableEq

/-- Default multi-root slide used with `List.getD` in statements. -/
def dM : MSlide :=
  ⟨false, false, false, false⟩

/-- Model of `_applyStateMultiRoot`: every slide gets the `slide` class,
`active` toggled to match the active index, `exit-left` cleared, and
`aria-hidden` set exactly on the non-active slides. -/
def applyStateMultiRoot (idx : Nat) (slides : List MSlide) : List MSlide :=
  mapIdxF
    (fun i s =>
      { s with slideCls := true, activeCls := i = idx,
               exitLeftCls := false, ariaHidden := i ≠ idx })
    0 slides

/-- A multi-root carousel: active index, per-slide class state, and the
`slide:change` events dispatched so far. -/
structure MCar where
  idx : Nat
  slides : List MSlide
  events : List Nat
deriving DecidableEq

/-- Model of the multi-root branch of `_go`: no-op when at most one slide;
otherwise wrap the index, clear `exit-left` on the outgoing slide, retoggle
every slide's classes, re-add `exit-left` on the outgoing slide, and
dispatch `slide:change`. -/
def mgo (m : MCar) (newIndex : Int) : MCar :=
  let count := m.slides.length
  if count ≤ 1 then m
  else
    let old := m.idx
    let idx' := ((newIndex + count).tmod count).toNat
    let s1 := modifyAt (fun s => { s with exitLeftCls := false }) old m.slides
    let s2 := applyStateMultiRoot idx' s1
    let s3 := modifyAt (fun s => { s with exitLeftCls := true }) old s2
    { idx := idx', slides := s3, events := m.events ++ [idx'] }

/-- Model of `next()` resolved in multi-root mode. -/
def mnext (m : MCar) : MCar :=
  mgo m ((m.idx : Int) + 1)

/-- Model of `prev()` resolved in multi-root mode. -/
def mprev (m : MCar) : MCar :=
  mgo m ((m.idx : Int) - 1)

/-- Model of `firstUpdated` in multi-root mode: index 0, each slide given
the `slide` class and `aria-hidden` for non-first slides, then the class
toggle pass for index 0. -/
def mfirstUpdated (raw : List MSlide) : MCar :=
  let s1 := mapIdxF
    (fun i s => { s with slideCls := true, ariaHidden := i ≠ 0 }) 0 raw
  ⟨0, applyStateMultiRoot 0 s1, []⟩

/-- Classify a multi-root slide's class state, per the component
stylesheet: `active` class means visible and raised, `exit-left` means the
exiting fade, neither means the hidden base style. -/
def mstate (s : MSlide) : VisualState :=
  if s.activeCls then .Active
  else if s.exitLeftCls then .ExitingPrev
  else .Hidden

/-! ### Autoplay timer lifecycle -/

/-- Autoplay-relevant widget state: the two reactive properties and the
timer handle, recorded together with the interval it was started with. -/
structure AState where
  autoplay : Bool
  interval : Nat
  timer : Option Nat
deriving DecidableEq

/-- Model of `_start`: start a timer at the current interval only when
autoplay is on and there are at least two slides. -/
def astart (count : Nat) (s : AState) : AState :=
  if s.autoplay ∧ 1 < count then { s with timer := some s.interval } else s

/-- Model of `_stop`: clear the timer. -/
def astop (s : AState) : AState :=
  { s with timer := none }

/-- A reactive-property update observed by `updated`. -/
inductive AOp where
  | setAutoplay (b : Bool)
  | setIntervalMs (n : Nat)

/-- Model of a property assignment followed by Lit's `updated` callback:
an assignment of an unchanged value triggers no update; otherwise the
property changes and `updated` stops the timer and restarts it against the
current slide count and settings. -/
def aupdate (count : Nat) (s : AState) : AOp → AState
  | .setAutoplay b =>
    if b = s.autoplay then s
    else astart count (astop { s with autoplay := b })
  | .setIntervalMs n =>
    if n = s.interval then s
    else astart count (astop { s with interval := n })

/-- Model of `firstUpdated`'s autoplay side: `_start` against the detected
slide count. -/
def afirst (count : Nat) (s : AState) : AState :=
  astart count s

/-- A widget's autoplay state as constructed: both properties set, no timer
running yet. -/
def ainit (autoplay : Bool) (interval : Nat) : AState :=
  ⟨autoplay, interval, none⟩

/-- Run a sequence of property updates. -/
def arun (count : Nat) (s : AState) (ops : List AOp) : AState :=
  ops.foldl (aupdate count) s

/-- Model of `disconnectedCallback`'s autoplay side: `_stop`. -/
def ateardown (s : AState) : AState :=
  astop s

/-! ### Slide-wrapper normalizer -/

/-- A DOM child node of a slide, as far as `_ensureWrap` can distinguish
them: an element that may carry the `devcon-slide-wrap` marker class (with
its own child nodes), or a non-element node. -/
inductive DNode where
  | el : Bool → List DNode → DNode
  | txt : Nat → DNode

/-- Whether a node is an element carrying the marker class
(what `:scope > .devcon-slide-wrap` matches among the children). -/
def isWrapEl : DNode → Bool
  | .el true _ => true
  | _ => false

/-- Model of `slide.querySelector(':scope > .devcon-slide-wrap')`: the
first direct child carrying the marker class, if any. -/
def findWrap (cs : List DNode) : Option DNode :=
  cs.find? isWrapEl

/-- Model of `_ensureWrap` on a slide's child-node list: reuse an existing
marker-classed wrapper unchanged; otherwise create a wrapper as the first
child and move every original child node into it, in order, leaving the
wrapper as the slide's only child. -/
def ensureWrap (cs : List DNode) : List DNode :=
  match findWrap cs with
  | some _ => cs
  | none => [.el true cs]

/-! ### Index arithmetic helpers

JavaScript's `%` on integers is truncated remainder, `Int.tmod`; the operands
`_go` feeds it are non-negative, where it agrees with `Nat` remainder. -/

theorem tmod_coe (a b : Nat) : ((a : Int).tmod (b : Int)).toNat = a % b :=
  rfl

theorem idx_next_formula (N idx : Nat) :
    ((((idx : Int) + 1) + (N : Int)).tmod (N : Int)).toNat = (idx + 1) % N := by
  have h : ((idx : Int) + 1) + (N : Int) = ((idx + 1 + N : Nat) : Int) := by
    push_cast
    ring
  rw [h, tmod_coe, Nat.add_mod_right]

theorem idx_prev_formula (N idx : Nat) (h1 : 1 ≤ N) :
    ((((idx : Int) - 1) + (N : Int)).tmod (N : Int)).toNat
      = (idx + (N - 1)) % N := by
  have h : ((idx : Int) - 1) + (N : Int) = ((idx + (N - 1) : Nat) : Int) := by
    have := Int.ofNat_sub h1
    push_cast [this]
    ring
  rw [h, tmod_coe]

theorem next_ne_self (N idx : Nat) (h2 : 2 ≤ N) (hlt : idx < N) :
    (idx + 1) % N ≠ idx := by
  rcases Nat.lt_or_ge (idx + 1) N with h | h
  · rw [Nat.mod_eq_of_lt h]
    omega
  · have he : idx + 1 = N := by omega
    rw [he, Nat.mod_self]
    omega

theorem prev_ne_self (N idx : Nat) (h2 : 2 ≤ N) (hlt : idx < N) :
    (idx + (N - 1)) % N ≠ idx := by
  rcases Nat.eq_zero_or_pos idx with h0 | h0
  · rw [h0]
    rw [Nat.zero_add, Nat.mod_eq_of_lt (by omega)]
    omega
  · have he : idx + (N - 1) = (idx - 1) + N := by omega
    rw [he, Nat.add_mod_right, Nat.mod_eq_of_lt (by omega)]
    omega

theorem prev_next_cancel (N idx : Nat) (h2 : 2 ≤ N) (hlt : idx < N) :
    ((idx + 1) % N + (N - 1)) % N = idx := by
  rw [Nat.mod_add_mod]
  have he : idx + 1 + (N - 1) = idx + N := by omega
  rw [he, Nat.add_mod_right, Nat.mod_eq_of_lt hlt]

/-! ### Pointwise characterization of the container-mode restyle pass -/

theorem length_applyStateContainer (cfg : Config) (idx old : Nat)
    (slides : List CSlide) :
    (applyStateContainer cfg idx old slides).length = slides.length := by
  simp [applyStateContainer, length_modifyAt, length_mapIdxF]

theorem applyStateContainer_getD_incoming (cfg : Config) (idx old : Nat)
    (slides : List CSlide) (hlt : idx < slides.length) (hne : idx ≠ old) :
    (applyStateContainer cfg idx old slides).getD idx dC
      = ⟨2, 1, false, .center, tf cfg 0 0⟩ := by
  unfold applyStateContainer
  rw [getD_modifyAt_ne _ _ _ _ _ hne]
  rw [getD_mapIdxF _ _ _ _ _ (by simpa [length_modifyAt] using hlt)]
  rw [getD_modifyAt_self _ _ _ _ hlt]
  simp

theorem applyStateContainer_getD_outgoing (cfg : Config) (idx old : Nat)
    (slides : List CSlide) (hlt : old < slides.length) (hne : old ≠ idx) :
    (applyStateContainer cfg idx old slides).getD old dC
      = { slides.getD old dC with
            zIndex := 1, opacity := 1, origin := .leftEdge,
            transform := tf cfg (-70) cfg.tilt } := by
  unfold applyStateContainer
  rw [getD_modifyAt_self _ _ _ _
    (by simpa [length_modifyAt, length_mapIdxF] using hlt)]
  rw [getD_mapIdxF _ _ _ _ _ (by simpa [length_modifyAt] using hlt)]
  rw [getD_modifyAt_ne _ _ _ _ _ hne]
  simp

theorem applyStateContainer_getD_other (cfg : Config) (idx old i : Nat)
    (slides : List CSlide) (hlt : i < slides.length) (h1 : i ≠ idx)
    (h2 : i ≠ old) :
    (applyStateContainer cfg idx old slides).getD i dC
      = { slides.getD i dC with
            zIndex := 1, opacity := 0, ariaHidden := true } := by
  unfold applyStateContainer
  rw [getD_modifyAt_ne _ _ _ _ _ h2]
  rw [getD_mapIdxF _ _ _ _ _ (by simpa [length_modifyAt] using hlt)]
  rw [getD_modifyAt_ne _ _ _ _ _ h1]
  simp [h1, h2]

/-! ### Pointwise characterization of the multi-root restyle pass -/

theorem length_applyStateMultiRoot (idx : Nat) (slides : List MSlide) :
    (applyStateMultiRoot idx slides).length = slides.length := by
  simp [applyStateMultiRoot, length_mapIdxF]

theorem mgo_slides_getD (m : MCar) (newIndex : Int) (i : Nat)
    (h2 : 2 ≤ m.slides.length) (hi : i < m.slides.length) :
    (mgo m newIndex).slides.getD i dM
      = (let idx' := ((newIndex + (m.slides.length : Int)).tmod
            (m.slides.length : Int)).toNat
         if i = m.idx then ⟨true, i = idx', true, ¬(i = idx')⟩
         else ⟨true, i = idx', false, ¬(i = idx')⟩ : MSlide) := by
  have hnle : ¬ (m.slides.length ≤ 1) := by omega
  unfold mgo
  simp only [hnle, if_false]
  by_cases hio : i = m.idx
  · subst hio
    rw [getD_modifyAt_self _ _ _ _
      (by simpa [length_applyStateMultiRoot, length_modifyAt] using hi)]
    unfold applyStateMultiRoot
    rw [getD_mapIdxF _ _ _ _ _ (by simpa [length_modifyAt] using hi)]
    simp
  · rw [getD_modifyAt_ne _ _ _ _ _ hio]
    unfold applyStateMultiRoot
    rw [getD_mapIdxF _ _ _ _ _ (by simpa [length_modifyAt] using hi)]
    simp [hio]

/-! ### Advance-level lemmas -/

theorem cgo_noop (c : CCar) (n : Int) (h : c.slides.length ≤ 1) :
    cgo c n = c := by
  simp [cgo, h]

theorem mgo_noop (m : MCar) (n : Int) (h : m.slides.length ≤ 1) :
    mgo m n = m := by
  simp [mgo, h]

theorem cgo_idx (c : CCar) (n : Int) (h : 2 ≤ c.slides.length) :
    (cgo c n).idx
      = ((n + (c.slides.length : Int)).tmod (c.slides.length : Int)).toNat := by
  have hnle : ¬ (c.slides.length ≤ 1) := by omega
  simp [cgo, hnle]

theorem cgo_length (c : CCar) (n : Int) :
    (cgo c n).slides.length = c.slides.length := by
  unfold cgo
  by_cases h : c.slides.length ≤ 1
  · simp [h]
  · simp [h, length_applyStateContainer]

theorem mgo_idx (m : MCar) (n : Int) (h : 2 ≤ m.slides.length) :
    (mgo m n).idx
      = ((n + (m.slides.length : Int)).tmod (m.slides.length : Int)).toNat := by
  have hnle : ¬ (m.slides.length ≤ 1) := by omega
  simp [mgo, hnle]

theorem mgo_length (m : MCar) (n : Int) :
    (mgo m n).slides.length = m.slides.length := by
  unfold mgo
  by_cases h : m.slides.length ≤ 1
  · simp [h]
  · simp [h, length_modifyAt, length_applyStateMultiRoot]

theorem cnext_idx (c : CCar) (h : 2 ≤ c.slides.length) :
    (cnext c).idx = (c.idx + 1) % c.slides.length := by
  rw [cnext, cgo_idx c _ h, idx_next_formula]

theorem cprev_idx (c : CCar) (h : 2 ≤ c.slides.length) :
    (cprev c).idx = (c.idx + (c.slides.length - 1)) % c.slides.length := by
  rw [cprev, cgo_idx c _ h, idx_prev_formula _ _ (by omega)]

theorem mnext_idx (m : MCar) (h : 2 ≤ m.slides.length) :
    (mnext m).idx = (m.idx + 1) % m.slides.length := by
  rw [mnext, mgo_idx m _ h, idx_next_formula]

theorem mprev_idx (m : MCar) (h : 2 ≤ m.slides.length) :
    (mprev m).idx = (m.idx + (m.slides.length - 1)) % m.slides.length := by
  rw [mprev, mgo_idx m _ h, idx_prev_formula _ _ (by omega)]

theorem cnext_iterate (c : CCar) (h2 : 2 ≤ c.slides.length)
    (hlt : c.idx < c.slides.length) (k : Nat) :
    (cnext^[k] c).idx = (c.idx + k) % c.slides.length ∧
      (cnext^[k] c).slides.length = c.slides.length := by
  induction k with
  | zero => simpa using Nat.mod_eq_of_lt hlt |>.symm
  | succ n ih =>
    rw [Function.iterate_succ_apply']
    obtain ⟨hidx, hlen⟩ := ih
    constructor
    · rw [cnext_idx _ (by omega), hlen, hidx, Nat.mod_add_mod]
      rfl
    · rw [cnext, cgo_length, hlen]

theorem mnext_iterate (m : MCar) (h2 : 2 ≤ m.slides.length)
    (hlt : m.idx < m.slides.length) (k : Nat) :
    (mnext^[k] m).idx = (m.idx + k) % m.slides.length ∧
      (mnext^[k] m).slides.length = m.slides.length := by
  induction k with
  | zero => simpa using Nat.mod_eq_of_lt hlt |>.symm
  | succ n ih =>
    rw [Function.iterate_succ_apply']
    obtain ⟨hidx, hlen⟩ := ih
    constructor
    · rw [mnext_idx _ (by omega), hlen, hidx, Nat.mod_add_mod]
      rfl
    · rw [mnext, mgo_length, hlen]

/-! ### Concrete example widgets for witnesses -/

/-- Default configuration values of the component. -/
def cfgEx : Config :=
  ⟨true, 4000, 900, 20⟩

/-- A container-mode carousel with three slides at index 0. -/
def cEx3 : CCar :=
  ⟨cfgEx, 0, [dC, dC, dC], [], 0, [], []⟩

/-- A container-mode carousel with a single slide. -/
def cEx1 : CCar :=
  ⟨cfgEx, 0, [dC], [], 0, [], []⟩

/-- A multi-root carousel with three slides at index 0. -/
def mEx3 : MCar :=
  ⟨0, [dM, dM, dM], []⟩

/-- A multi-root carousel with no slides. -/
def mEx0 : MCar :=
  ⟨0, [], []⟩

/-- Two top-level assigned elements. -/
def rootsPairEx : List Elem :=
  [Elem.mk [], Elem.mk []]

/-! ### Claim theorems -/

/-- Claim C2: index arithmetic wraps modulo the slide count. In both modes,
an advance by delta `d` resolves the new index as
`(old + d + count) tmod count` (JavaScript's `%`); consequently, for every
slide count `N > 1` and valid starting index, `next()` iterated `N` times
returns the active index to its starting value, and `next()` followed by
`previous()` restores the original active index. -/
theorem index_wrap_and_inverse (c : CCar) (m : MCar)
    (hc2 : 2 ≤ c.slides.length) (hclt : c.idx < c.slides.length)
    (hm2 : 2 ≤ m.slides.length) (hmlt : m.idx < m.slides.length) :
    (∀ d : Int, (cgo c ((c.idx : Int) + d)).idx
        = (((c.idx : Int) + d + (c.slides.length : Int)).tmod
            (c.slides.length : Int)).toNat) ∧
    (∀ d : Int, (mgo m ((m.idx : Int) + d)).idx
        = (((m.idx : Int) + d + (m.slides.length : Int)).tmod
            (m.slides.length : Int)).toNat) ∧
    (cnext^[c.slides.length] c).idx = c.idx ∧
    (cprev (cnext c)).idx = c.idx ∧
    (mnext^[m.slides.length] m).idx = m.idx ∧
    (mprev (mnext m)).idx = m.idx := by
  refine ⟨fun d => cgo_idx c _ hc2, fun d => mgo_idx m _ hm2, ?_, ?_, ?_, ?_⟩
  · rw [(cnext_iterate c hc2 hclt c.slides.length).1, Nat.add_mod_right,
      Nat.mod_eq_of_lt hclt]
  · have hlen : (cnext c).slides.length = c.slides.length := by
      rw [cnext, cgo_length]
    rw [cprev_idx _ (by omega), hlen, cnext_idx c hc2,
      prev_next_cancel _ _ hc2 hclt]
  · rw [(mnext_iterate m hm2 hmlt m.slides.length).1, Nat.add_mod_right,
      Nat.mod_eq_of_lt hmlt]
  · have hlen : (mnext m).slides.length = m.slides.length := by
      rw [mnext, mgo_length]
    rw [mprev_idx _ (by omega), hlen, mnext_idx m hm2,
      prev_next_cancel _ _ hm2 hmlt]

theorem index_wrap_and_inverse_witness :
    (2 ≤ cEx3.slides.length ∧ cEx3.idx < cEx3.slides.length ∧
      2 ≤ mEx3.slides.length ∧ mEx3.idx < mEx3.slides.length) ∧
    (cnext^[cEx3.slides.length] cEx3).idx = cEx3.idx ∧
    (cprev (cnext cEx3)).idx = cEx3.idx ∧
    (mnext^[mEx3.slides.length] mEx3).idx = mEx3.idx ∧
    (mprev (mnext mEx3)).idx = mEx3.idx := by
  have h := index_wrap_and_inverse cEx3 mEx3 (by decide) (by decide)
    (by decide) (by decide)
  exact ⟨⟨by decide, by decide, by decide, by decide⟩,
    h.2.2.1, h.2.2.2.1, h.2.2.2.2.1, h.2.2.2.2.2⟩

/-- Claim C3: with at most one detected slide (including zero), `next()` and
`previous()` are complete no-ops in both modes: the whole widget state —
active index, per-slide styling, dispatched events — is unchanged, so in
particular no `slide:change` notification is fired. -/
theorem single_slide_noop (c : CCar) (m : MCar)
    (hc : c.slides.length ≤ 1) (hm : m.slides.length ≤ 1) :
    cnext c = c ∧ cprev c = c ∧ mnext m = m ∧ mprev m = m ∧
    (cnext c).events = c.events ∧ (mnext m).events = m.events := by
  refine ⟨cgo_noop c _ hc, cgo_noop c _ hc, mgo_noop m _ hm, mgo_noop m _ hm,
    ?_, ?_⟩
  · rw [cnext, cgo_noop c _ hc]
  · rw [mnext, mgo_noop m _ hm]

theorem single_slide_noop_witness :
    (cEx1.slides.length ≤ 1 ∧ mEx0.slides.length ≤ 1) ∧
    cnext cEx1 = cEx1 ∧ cprev cEx1 = cEx1 ∧
    mnext mEx0 = mEx0 ∧ mprev mEx0 = mEx0 ∧
    (cnext cEx1).events = cEx1.events ∧ (mnext mEx0).events = mEx0.events :=
  ⟨⟨by decide, by decide⟩,
    single_slide_noop cEx1 mEx0 (by decide) (by decide)⟩

/-- Claim C4: with more than one top-level assigned element the widget is in
multi-root mode and each top-level element is a slide; with exactly one, the
detector descends through single-child nodes and the first node with zero or
several element children is the slide parent, whose direct element children
are the slides; the descent always terminates on a node with child count
different from one; and a pure single-child chain ending in a childless node
yields zero slides. -/
theorem mode_detection (roots : List Elem) (r e : Elem) (n : Nat) :
    (1 < roots.length →
      containerMode roots = none ∧ multiRootSlides roots = roots) ∧
    containerMode [r] = some (findSlideParent r, (findSlideParent r).children) ∧
    (findSlideParent e).children.length ≠ 1 ∧
    (findSlideParent (singleChain n)).children = [] := by
  refine ⟨?_, rfl, children_findSlideParent_ne_one e, ?_⟩
  · intro h
    refine ⟨?_, rfl⟩
    match roots, h with
    | a :: b :: rest, _ => rfl
  · induction n with
    | zero => rfl
    | succ k ih => rw [singleChain, findSlideParent_singleton]; exact ih

theorem mode_detection_witness :
    1 < rootsPairEx.length ∧
    containerMode rootsPairEx = none ∧
    multiRootSlides rootsPairEx = rootsPairEx := by
  have h1 : 1 < rootsPairEx.length := by decide
  exact ⟨h1, (mode_detection rootsPairEx (.mk []) (.mk []) 0).1 h1⟩

/-- Claim C5: the slide-wrapper normalizer is idempotent. On a slide whose
children contain no marker-classed wrapper yet, one call produces exactly
one child — a marker-classed wrapper holding all original child nodes in
their original order — and a second call returns the result unchanged, so no
nested wrapper or duplicated content is ever created. -/
theorem ensureWrap_idempotent (cs : List DNode) :
    (findWrap cs = none →
      ensureWrap cs = [DNode.el true cs] ∧
      (ensureWrap cs).length = 1 ∧
      (ensureWrap cs).countP isWrapEl = 1) ∧
    ensureWrap (ensureWrap cs) = ensureWrap cs := by
  constructor
  · intro h
    have he : ensureWrap cs = [DNode.el true cs] := by
      unfold ensureWrap
      rw [h]
    refine ⟨he, by rw [he]; rfl, by rw [he]; rfl⟩
  · cases hf : findWrap cs with
    | some w =>
      have he : ensureWrap cs = cs := by
        unfold ensureWrap
        rw [hf]
      rw [he, he]
    | none =>
      have he : ensureWrap cs = [DNode.el true cs] := by
        unfold ensureWrap
        rw [hf]
      rw [he]
      unfold ensureWrap findWrap
      rfl

/-- A slide with one text node and one non-marker element child. -/
def csEx : List DNode :=
  [DNode.txt 0, DNode.el false []]

theorem ensureWrap_idempotent_witness :
    findWrap csEx = none ∧
    ensureWrap csEx = [DNode.el true csEx] ∧
    ensureWrap (ensureWrap csEx) = ensureWrap csEx :=
  ⟨rfl, ((ensureWrap_idempotent csEx).1 rfl).1, (ensureWrap_idempotent csEx).2⟩

/-- One assigned root wrapping two element children: container mode. -/
def rootWrappedEx : List Elem :=
  [Elem.mk [Elem.mk [], Elem.mk []]]

/-- Claim C7 counterexample: the mode is not fixed at first render. With the
assigned children `rootWrappedEx` at first render the widget starts in
Container mode, but an advance performed after the slot content has changed
to `rootsPairEx` re-runs the detection and resolves Multi-root mode — a mode
different from the one determined at first render. -/
theorem mode_fixed_counterexample :
    firstRenderMode rootWrappedEx = Mode.container ∧
    goMode rootsPairEx = Mode.multiRoot ∧
    goMode rootsPairEx ≠ firstRenderMode rootWrappedEx := by
  decide

/-- Claim C7 (amended): the operating mode is not stored; `_go` re-derives
it from the current assigned children on every advance, with the same
detector `firstUpdated` uses — Container mode iff there is exactly one
top-level assigned element. Hence while the assigned children are unchanged
since first render, every advance resolves the first-render mode. -/
theorem mode_redetected_each_advance (roots : List Elem) :
    goMode roots = firstRenderMode roots ∧
    (goMode roots = Mode.container ↔ roots.length = 1) := by
  refine ⟨rfl, ?_⟩
  rcases roots with _ | ⟨a, _ | ⟨b, rest⟩⟩ <;>
    simp [goMode, containerMode]

/-- The steady-state autoplay-timer invariant. -/
def atimerInv (count : Nat) (s : AState) : Prop :=
  s.timer = if s.autoplay ∧ 1 < count then some s.interval else none

theorem astart_astop_inv (count : Nat) (s : AState) :
    atimerInv count (astart count (astop s)) := by
  unfold atimerInv astart astop
  by_cases h : (s.autoplay : Prop) ∧ 1 < count
  · simp [h]
  · simp [h]

theorem aupdate_inv (count : Nat) (s : AState) (op : AOp)
    (h : atimerInv count s) : atimerInv count (aupdate count s op) := by
  cases op with
  | setAutoplay b =>
    unfold aupdate
    by_cases hb : b = s.autoplay
    · simpa [hb] using h
    · simpa [hb] using astart_astop_inv count { s with autoplay := b }
  | setIntervalMs n =>
    unfold aupdate
    by_cases hn : n = s.interval
    · simpa [hn] using h
    · simpa [hn] using astart_astop_inv count { s with interval := n }

theorem arun_inv (count : Nat) (s : AState) (ops : List AOp)
    (h : atimerInv count s) : atimerInv count (arun count s ops) := by
  induction ops generalizing s with
  | nil => exact h
  | cons op rest ih => exact ih (aupdate count s op) (aupdate_inv count s op h)

/-- Claim C8: after first render and any sequence of autoplay/interval
property updates, the autoplay timer exists iff autoplay is currently
enabled and the slide count exceeds 1, and a running timer always uses the
current interval value (each toggle stops the old timer and restarts one
honoring the current settings); widget teardown always clears the timer. In
particular a disabled or single-slide widget never has a timer. -/
theorem autoplay_timer_invariant (a : Bool) (i count : Nat)
    (ops : List AOp) :
    (arun count (afirst count (ainit a i)) ops).timer
      = (if (arun count (afirst count (ainit a i)) ops).autoplay ∧ 1 < count
         then some (arun count (afirst count (ainit a i)) ops).interval
         else none) ∧
    (ateardown (arun count (afirst count (ainit a i)) ops)).timer = none := by
  have hfirst : atimerInv count (afirst count (ainit a i)) :=
    astart_astop_inv count (ainit a i)
  exact ⟨arun_inv count _ ops hfirst, rfl⟩

theorem initContainerMode_getD (cfg : Config) (raw : List CSlide) (i : Nat)
    (hi : i < raw.length) :
    (initContainerMode cfg raw).getD i dC
      = if i = 0 then ⟨2, 1, false, .center, tf cfg 0 0⟩
        else ⟨1, 0, true, .rightEdge, tf cfg 100 (-cfg.tilt)⟩ := by
  unfold initContainerMode
  rw [getD_mapIdxF _ _ _ _ _ hi]
  by_cases h : i = 0 <;> simp [h]

theorem mfirstUpdated_getD (raw : List MSlide) (i : Nat)
    (hi : i < raw.length) :
    (mfirstUpdated raw).slides.getD i dM
      = ⟨true, i = 0, false, ¬(i = 0)⟩ := by
  unfold mfirstUpdated applyStateMultiRoot
  rw [getD_mapIdxF _ _ _ _ _ (by simpa [length_mapIdxF] using hi)]
  simp

/-- Claim C9: at first render both modes initialize the active index to 0
and make slide 0 Active while every other slide is Hidden; in Container mode
every non-first slide's wrapper is parked translated fully right
(`translateX(100%)`), rotated by minus the configured tilt, with its
transform origin on its trailing (right) edge, and the slide is
accessibility-hidden. -/
theorem first_render_initial_state (cfg : Config) (rawC : List CSlide)
    (rawM : List MSlide) :
    (cfirstUpdated cfg rawC).idx = 0 ∧
    (mfirstUpdated rawM).idx = 0 ∧
    (0 < rawC.length →
      cstate ((cfirstUpdated cfg rawC).slides.getD 0 dC) = .Active ∧
      ((cfirstUpdated cfg rawC).slides.getD 0 dC).ariaHidden = false) ∧
    (∀ i, 0 < i → i < rawC.length →
      cstate ((cfirstUpdated cfg rawC).slides.getD i dC) = .Hidden ∧
      ((cfirstUpdated cfg rawC).slides.getD i dC).transform
        = tf cfg 100 (-cfg.tilt) ∧
      ((cfirstUpdated cfg rawC).slides.getD i dC).origin = .rightEdge ∧
      ((cfirstUpdated cfg rawC).slides.getD i dC).ariaHidden = true) ∧
    (0 < rawM.length →
      mstate ((mfirstUpdated rawM).slides.getD 0 dM) = .Active ∧
      ((mfirstUpdated rawM).slides.getD 0 dM).ariaHidden = false) ∧
    (∀ i, 0 < i → i < rawM.length →
      mstate ((mfirstUpdated rawM).slides.getD i dM) = .Hidden ∧
      ((mfirstUpdated rawM).slides.getD i dM).ariaHidden = true) := by
  refine ⟨rfl, rfl, ?_, ?_, ?_, ?_⟩
  · intro h0
    rw [show (cfirstUpdated cfg rawC).slides = initContainerMode cfg rawC
        from rfl,
      initContainerMode_getD cfg rawC 0 h0]
    exact ⟨rfl, rfl⟩
  · intro i hpos hlt
    rw [show (cfirstUpdated cfg rawC).slides = initContainerMode cfg rawC
        from rfl,
      initContainerMode_getD cfg rawC i hlt]
    have hne : ¬ (i = 0) := by omega
    rw [if_neg hne]
    exact ⟨rfl, rfl, rfl, rfl⟩
  · intro h0
    rw [mfirstUpdated_getD rawM 0 h0]
    exact ⟨rfl, rfl⟩
  · intro i hpos hlt
    rw [mfirstUpdated_getD rawM i hlt]
    have hne : ¬ (i = 0) := by omega
    constructor
    · simp [mstate, hne]
    · simp [hne]

theorem first_render_initial_state_witness :
    (0 < ([dC, dC, dC] : List CSlide).length ∧
      0 < ([dM, dM] : List MSlide).length) ∧
    cstate ((cfirstUpdated cfgEx [dC, dC, dC]).slides.getD 0 dC)
      = .Active ∧
    ((cfirstUpdated cfgEx [dC, dC, dC]).slides.getD 0 dC).ariaHidden
      = false ∧
    mstate ((mfirstUpdated [dM, dM]).slides.getD 0 dM) = .Active ∧
    ((mfirstUpdated [dM, dM]).slides.getD 0 dM).ariaHidden = false := by
  have h := first_render_initial_state cfgEx [dC, dC, dC] [dM, dM]
  obtain ⟨hc, hc'⟩ := h.2.2.1 (by decide)
  obtain ⟨hm, hm'⟩ := h.2.2.2.2.1 (by decide)
  exact ⟨⟨by decide, by decide⟩, hc, hc', hm, hm'⟩

theorem cgo_slides (c : CCar) (n : Int) (h : 2 ≤ c.slides.length) :
    (cgo c n).slides = applyStateContainer c.cfg
      ((n + (c.slides.length : Int)).tmod (c.slides.length : Int)).toNat
      c.idx c.slides := by
  have hnle : ¬ (c.slides.length ≤ 1) := by omega
  simp [cgo, hnle]

theorem cgo_listeners (c : CCar) (n : Int) (h2 : 2 ≤ c.slides.length)
    (hlt : c.idx < c.slides.length) :
    (cgo c n).listeners = c.listeners ++ [(c.idx, c.nextCb)] ∧
    (cgo c n).nextCb = c.nextCb + 1 := by
  have hnle : ¬ (c.slides.length ≤ 1) := by omega
  constructor <;> simp [cgo, hnle, hlt]

theorem adv_target (N idx : Nat) (d : Int) (hd : d = 1 ∨ d = -1)
    (h2 : 2 ≤ N) (hlt : idx < N) :
    ((((idx : Int) + d) + (N : Int)).tmod (N : Int)).toNat < N ∧
    ((((idx : Int) + d) + (N : Int)).tmod (N : Int)).toNat ≠ idx := by
  rcases hd with rfl | rfl
  · rw [idx_next_formula]
    exact ⟨Nat.mod_lt _ (by omega), next_ne_self N idx h2 hlt⟩
  · have hcast : ((idx : Int) + -1) + (N : Int) = ((idx : Int) - 1) + N := by
      ring
    rw [hcast, idx_prev_formula N idx (by omega)]
    exact ⟨Nat.mod_lt _ (by omega), prev_ne_self N idx h2 hlt⟩

theorem fireTransitionEnd_otherProp (c : CCar) (i : Nat) :
    fireTransitionEnd c i .otherProp = c :=
  rfl

theorem fireTransitionEnd_transform_eq (c : CCar) (i : Nat)
    (h : (c.listeners.filter (fun l => l.1 == i)).isEmpty = false) :
    fireTransitionEnd c i .transform =
      { c with
          slides := modifyAt
            (fun s => { s with opacity := 0, ariaHidden := true }) i c.slides
          listeners := c.listeners.filter (fun l => !(l.1 == i))
          fired := c.fired
            ++ (c.listeners.filter (fun l => l.1 == i)).map Prod.snd } := by
  unfold fireTransitionEnd
  simp [h]

theorem multiroot_pointwise_state (m : MCar) (nI : Int)
    (hm2 : 2 ≤ m.slides.length) (_hlt : m.idx < m.slides.length)
    (hne : ((nI + (m.slides.length : Int)).tmod
        (m.slides.length : Int)).toNat ≠ m.idx) (i : Nat)
    (hi : i < m.slides.length) :
    mstate ((mgo m nI).slides.getD i dM)
      = (if i = ((nI + (m.slides.length : Int)).tmod
            (m.slides.length : Int)).toNat then .Active
         else if i = m.idx then .ExitingPrev
         else .Hidden) ∧
    (i ≠ ((nI + (m.slides.length : Int)).tmod
        (m.slides.length : Int)).toNat →
      ((mgo m nI).slides.getD i dM).ariaHidden = true) := by
  have hget := mgo_slides_getD m nI i hm2 hi
  by_cases h2 : i = m.idx
  · rw [if_pos h2] at hget
    have hne' : ¬ (i = ((nI + (m.slides.length : Int)).tmod
        (m.slides.length : Int)).toNat) := by
      rw [h2]
      exact fun h => hne h.symm
    rw [hget, if_neg hne', if_pos h2]
    constructor
    · simp [mstate, hne']
    · intro _
      simp [hne']
  · rw [if_neg h2] at hget
    rw [hget]
    by_cases h1 : i = ((nI + (m.slides.length : Int)).tmod
        (m.slides.length : Int)).toNat
    · rw [if_pos h1]
      exact ⟨by simp [mstate, h1], fun hc => absurd h1 hc⟩
    · rw [if_neg h1, if_neg h2]
      exact ⟨by simp [mstate, h1], fun _ => by simp [h1]⟩

/-- Claim C10: accessibility-hiding timing differs between the modes. In
multi-root mode every non-active slide — the outgoing slide included, even
while it carries the exiting class — is set `aria-hidden` synchronously
within the advance; in container mode the advance leaves the outgoing
slide's `aria-hidden` untouched (it stays `false` if the slide was active)
and fully opaque, and only the `transform` `transitionend` callback sets it
hidden (opacity 0, `aria-hidden`); a non-transform transition event changes
nothing. -/
theorem aria_hidden_timing (c : CCar) (m : MCar)
    (hc2 : 2 ≤ c.slides.length) (hclt : c.idx < c.slides.length)
    (hm2 : 2 ≤ m.slides.length) (hmlt : m.idx < m.slides.length) :
    (∀ i, i < m.slides.length → i ≠ (mnext m).idx →
      ((mnext m).slides.getD i dM).ariaHidden = true) ∧
    ((mnext m).slides.getD m.idx dM).ariaHidden = true ∧
    ((mnext m).slides.getD m.idx dM).exitLeftCls = true ∧
    ((cnext c).slides.getD c.idx dC).ariaHidden
      = (c.slides.getD c.idx dC).ariaHidden ∧
    ((cnext c).slides.getD c.idx dC).opacity = 1 ∧
    ((fireTransitionEnd (cnext c) c.idx .transform).slides.getD c.idx
        dC).ariaHidden = true ∧
    ((fireTransitionEnd (cnext c) c.idx .transform).slides.getD c.idx
        dC).opacity = 0 ∧
    fireTransitionEnd (cnext c) c.idx .otherProp = cnext c := by
  obtain ⟨hmlt', hmne'⟩ :=
    adv_target m.slides.length m.idx 1 (Or.inl rfl) hm2 hmlt
  obtain ⟨hclt', hcne'⟩ :=
    adv_target c.slides.length c.idx 1 (Or.inl rfl) hc2 hclt
  have hm' := mgo_slides_getD m ((m.idx : Int) + 1) m.idx hm2 hmlt
  simp only [eq_self_iff_true, if_true] at hm'
  have hcs := cgo_slides c ((c.idx : Int) + 1) hc2
  have hout := applyStateContainer_getD_outgoing c.cfg
    ((((c.idx : Int) + 1) + (c.slides.length : Int)).tmod
      (c.slides.length : Int)).toNat c.idx c.slides hclt (Ne.symm hcne')
  have hcgetD : (cnext c).slides.getD c.idx dC
      = { c.slides.getD c.idx dC with
            zIndex := 1, opacity := 1, origin := .leftEdge,
            transform := tf c.cfg (-70) c.cfg.tilt } := by
    rw [show cnext c = cgo c ((c.idx : Int) + 1) from rfl, hcs, hout]
  have hl := (cgo_listeners c ((c.idx : Int) + 1) hc2 hclt).1
  have hlist : (cnext c).listeners = c.listeners ++ [(c.idx, c.nextCb)] := hl
  have hhits : ((cnext c).listeners.filter (fun l => l.1 == c.idx)).isEmpty
      = false := by
    rw [hlist, List.filter_append]
    simp only [List.filter_cons, List.filter_nil]
    cases c.listeners.filter (fun l => l.1 == c.idx) <;> simp
  have hlen1 : (cnext c).slides.length = c.slides.length := by
    rw [show cnext c = cgo c ((c.idx : Int) + 1) from rfl, cgo_length]
  have hfire := fireTransitionEnd_transform_eq (cnext c) c.idx hhits
  have hfgetD : ((fireTransitionEnd (cnext c) c.idx .transform).slides.getD
      c.idx dC)
      = { (cnext c).slides.getD c.idx dC with
            opacity := 0, ariaHidden := true } := by
    rw [hfire]
    exact getD_modifyAt_self _ _ _ _ (by rw [hlen1]; exact hclt)
  refine ⟨?_, ?_, ?_, ?_, ?_, ?_, ?_, rfl⟩
  · intro i hi hne
    rw [show mnext m = mgo m ((m.idx : Int) + 1) from rfl] at hne ⊢
    rw [mgo_idx m ((m.idx : Int) + 1) hm2] at hne
    exact (multiroot_pointwise_state m ((m.idx : Int) + 1) hm2 hmlt hmne'
      i hi).2 hne
  · rw [show mnext m = mgo m ((m.idx : Int) + 1) from rfl, hm']
    simp
    exact fun h => hmne' h.symm
  · rw [show mnext m = mgo m ((m.idx : Int) + 1) from rfl, hm']
  · rw [hcgetD]
  · rw [hcgetD]
  · rw [hfgetD]
  · rw [hfgetD]

theorem aria_hidden_timing_witness :
    (2 ≤ cEx3.slides.length ∧ cEx3.idx < cEx3.slides.length ∧
      2 ≤ mEx3.slides.length ∧ mEx3.idx < mEx3.slides.length ∧
      2 < mEx3.slides.length ∧ 2 ≠ (mnext mEx3).idx) ∧
    ((mnext mEx3).slides.getD 2 dM).ariaHidden = true ∧
    ((mnext mEx3).slides.getD mEx3.idx dM).ariaHidden = true ∧
    ((cnext cEx3).slides.getD cEx3.idx dC).ariaHidden
      = (cEx3.slides.getD cEx3.idx dC).ariaHidden ∧
    ((fireTransitionEnd (cnext cEx3) cEx3.idx .transform).slides.getD
        cEx3.idx dC).ariaHidden = true := by
  have h := aria_hidden_timing cEx3 mEx3 (by decide) (by decide) (by decide)
    (by decide)
  exact ⟨⟨by decide, by decide, by decide, by decide, by decide, by decide⟩,
    h.1 2 (by decide) (by decide), h.2.1, h.2.2.2.1, h.2.2.2.2.2.1⟩

theorem container_pointwise_state (cfg : Config) (E old : Nat)
    (slides : List CSlide) (hE : E < slides.length)
    (hold : old < slides.length) (hne : E ≠ old) (i : Nat)
    (hi : i < slides.length) :
    cstate ((applyStateContainer cfg E old slides).getD i dC)
      = if i = E then .Active
        else if i = old then .ExitingPrev
        else .Hidden := by
  by_cases h1 : i = E
  · subst h1
    rw [applyStateContainer_getD_incoming cfg i old slides hE hne,
      if_pos rfl]
    rfl
  · by_cases h2 : i = old
    · subst h2
      rw [applyStateContainer_getD_outgoing cfg E i slides hold
        (Ne.symm hne), if_neg h1, if_pos rfl]
      rfl
    · rw [applyStateContainer_getD_other cfg E old i slides hi h1 h2,
        if_neg h1, if_neg h2]
      rfl

theorem container_partition (cfg : Config) (E old : Nat)
    (slides : List CSlide) (hE : E < slides.length)
    (hold : old < slides.length) (hne : E ≠ old) :
    ((Finset.range slides.length).filter
        (fun i => cstate ((applyStateContainer cfg E old slides).getD i dC)
          = .Active)).card = 1 ∧
    ((Finset.range slides.length).filter
        (fun i => cstate ((applyStateContainer cfg E old slides).getD i dC)
          = .ExitingPrev)).card ≤ 1 ∧
    (∀ i, i < slides.length →
      cstate ((applyStateContainer cfg E old slides).getD i dC)
        = .ExitingPrev → i = old) ∧
    (∀ i, i < slides.length → i ≠ E → i ≠ old →
      cstate ((applyStateContainer cfg E old slides).getD i dC) = .Hidden ∧
      ((applyStateContainer cfg E old slides).getD i dC).ariaHidden = true ∧
      ((applyStateContainer cfg E old slides).getD i dC).zIndex = 1) := by
  have hstate := container_pointwise_state cfg E old slides hE hold hne
  have hexit : ∀ i, i < slides.length →
      cstate ((applyStateContainer cfg E old slides).getD i dC)
        = .ExitingPrev → i = old := by
    intro i hi hst
    rw [hstate i hi] at hst
    by_cases h1 : i = E
    · simp [h1] at hst
    · by_cases h2 : i = old
      · exact h2
      · simp [h1, h2] at hst
  refine ⟨?_, ?_, hexit, ?_⟩
  · have hfA : (Finset.range slides.length).filter
        (fun i => cstate ((applyStateContainer cfg E old slides).getD i dC)
          = .Active) = {E} := by
      apply Finset.ext
      intro i
      simp only [Finset.mem_filter, Finset.mem_range, Finset.mem_singleton]
      constructor
      · rintro ⟨hi, hst⟩
        rw [hstate i hi] at hst
        by_cases h1 : i = E
        · exact h1
        · by_cases h2 : i = old
          · rw [if_neg h1, if_pos h2] at hst
            exact absurd hst (by decide)
          · rw [if_neg h1, if_neg h2] at hst
            exact absurd hst (by decide)
      · rintro rfl
        refine ⟨hE, ?_⟩
        rw [hstate _ hE]
        simp
    rw [hfA]
    simp
  · have hsub : (Finset.range slides.length).filter
        (fun i => cstate ((applyStateContainer cfg E old slides).getD i dC)
          = .ExitingPrev) ⊆ {old} := by
      intro i hi
      rw [Finset.mem_filter, Finset.mem_range] at hi
      rw [Finset.mem_singleton]
      exact hexit i hi.1 hi.2
    simpa using Finset.card_le_card hsub
  · intro i hi h1 h2
    have hrec := applyStateContainer_getD_other cfg E old i slides hi h1 h2
    refine ⟨?_, ?_, ?_⟩
    · rw [hstate i hi, if_neg h1, if_neg h2]
    · rw [hrec]
    · rw [hrec]

theorem multiroot_partition (m : MCar) (nI : Int)
    (hm2 : 2 ≤ m.slides.length) (hlt : m.idx < m.slides.length)
    (hElt : ((nI + (m.slides.length : Int)).tmod
        (m.slides.length : Int)).toNat < m.slides.length)
    (hne : ((nI + (m.slides.length : Int)).tmod
        (m.slides.length : Int)).toNat ≠ m.idx) :
    ((Finset.range m.slides.length).filter
        (fun i => mstate ((mgo m nI).slides.getD i dM) = .Active)).card
      = 1 ∧
    ((Finset.range m.slides.length).filter
        (fun i => mstate ((mgo m nI).slides.getD i dM)
          = .ExitingPrev)).card ≤ 1 ∧
    (∀ i, i < m.slides.length →
      mstate ((mgo m nI).slides.getD i dM) = .ExitingPrev → i = m.idx) ∧
    (∀ i, i < m.slides.length → i ≠ ((nI + (m.slides.length : Int)).tmod
        (m.slides.length : Int)).toNat → i ≠ m.idx →
      mstate ((mgo m nI).slides.getD i dM) = .Hidden ∧
      ((mgo m nI).slides.getD i dM).ariaHidden = true) := by
  have hstate := fun i hi =>
    (multiroot_pointwise_state m nI hm2 hlt hne i hi).1
  have haria := fun i hi =>
    (multiroot_pointwise_state m nI hm2 hlt hne i hi).2
  have hexit : ∀ i, i < m.slides.length →
      mstate ((mgo m nI).slides.getD i dM) = .ExitingPrev → i = m.idx := by
    intro i hi hst
    rw [hstate i hi] at hst
    by_cases h1 : i = ((nI + (m.slides.length : Int)).tmod
        (m.slides.length : Int)).toNat
    · simp [h1] at hst
    · by_cases h2 : i = m.idx
      · exact h2
      · simp [h1, h2] at hst
  refine ⟨?_, ?_, hexit, ?_⟩
  · have hfA : (Finset.range m.slides.length).filter
        (fun i => mstate ((mgo m nI).slides.getD i dM) = .Active)
        = {((nI + (m.slides.length : Int)).tmod
            (m.slides.length : Int)).toNat} := by
      apply Finset.ext
      intro i
      simp only [Finset.mem_filter, Finset.mem_range, Finset.mem_singleton]
      constructor
      · rintro ⟨hi, hst⟩
        rw [hstate i hi] at hst
        by_cases h1 : i = ((nI + (m.slides.length : Int)).tmod
            (m.slides.length : Int)).toNat
        · exact h1
        · by_cases h2 : i = m.idx
          · rw [if_neg h1, if_pos h2] at hst
            exact absurd hst (by decide)
          · rw [if_neg h1, if_neg h2] at hst
            exact absurd hst (by decide)
      · rintro rfl
        refine ⟨hElt, ?_⟩
        rw [hstate _ hElt]
        simp
    rw [hfA]
    simp
  · have hsub : (Finset.range m.slides.length).filter
        (fun i => mstate ((mgo m nI).slides.getD i dM) = .ExitingPrev)
        ⊆ {m.idx} := by
      intro i hi
      rw [Finset.mem_filter, Finset.mem_range] at hi
      rw [Finset.mem_singleton]
      exact hexit i hi.1 hi.2
    simpa using Finset.card_le_card hsub
  · intro i hi h1 h2
    refine ⟨?_, haria i hi h1⟩
    rw [hstate i hi, if_neg h1, if_neg h2]

/-- Claim C1: after any advance (`next` or `previous`, delta ±1) on a widget
with at least two slides, in both modes: exactly one slide is in the Active
visual state, at most one slide is ExitingPrev and any ExitingPrev slide is
the previously active one, and every slide other than the incoming and
outgoing ones is Hidden with lowered stacking and `aria-hidden` set. -/
theorem advance_state_partition (c : CCar) (m : MCar) (d : Int)
    (hd : d = 1 ∨ d = -1)
    (hc2 : 2 ≤ c.slides.length) (hclt : c.idx < c.slides.length)
    (hm2 : 2 ≤ m.slides.length) (hmlt : m.idx < m.slides.length) :
    (((Finset.range c.slides.length).filter
        (fun i => cstate ((cgo c ((c.idx : Int) + d)).slides.getD i dC)
          = .Active)).card = 1 ∧
      ((Finset.range c.slides.length).filter
        (fun i => cstate ((cgo c ((c.idx : Int) + d)).slides.getD i dC)
          = .ExitingPrev)).card ≤ 1 ∧
      (∀ i, i < c.slides.length →
        cstate ((cgo c ((c.idx : Int) + d)).slides.getD i dC)
          = .ExitingPrev → i = c.idx) ∧
      (∀ i, i < c.slides.length → i ≠ (cgo c ((c.idx : Int) + d)).idx →
        i ≠ c.idx →
        cstate ((cgo c ((c.idx : Int) + d)).slides.getD i dC) = .Hidden ∧
        ((cgo c ((c.idx : Int) + d)).slides.getD i dC).ariaHidden = true ∧
        ((cgo c ((c.idx : Int) + d)).slides.getD i dC).zIndex = 1)) ∧
    (((Finset.range m.slides.length).filter
        (fun i => mstate ((mgo m ((m.idx : Int) + d)).slides.getD i dM)
          = .Active)).card = 1 ∧
      ((Finset.range m.slides.length).filter
        (fun i => mstate ((mgo m ((m.idx : Int) + d)).slides.getD i dM)
          = .ExitingPrev)).card ≤ 1 ∧
      (∀ i, i < m.slides.length →
        mstate ((mgo m ((m.idx : Int) + d)).slides.getD i dM)
          = .ExitingPrev → i = m.idx) ∧
      (∀ i, i < m.slides.length → i ≠ (mgo m ((m.idx : Int) + d)).idx →
        i ≠ m.idx →
        mstate ((mgo m ((m.idx : Int) + d)).slides.getD i dM) = .Hidden ∧
        ((mgo m ((m.idx : Int) + d)).slides.getD i dM).ariaHidden
          = true)) := by
  obtain ⟨hclt', hcne'⟩ := adv_target c.slides.length c.idx d hd hc2 hclt
  obtain ⟨hmlt', hmne'⟩ := adv_target m.slides.length m.idx d hd hm2 hmlt
  constructor
  · have hcs := cgo_slides c ((c.idx : Int) + d) hc2
    have hcidx := cgo_idx c ((c.idx : Int) + d) hc2
    simp only [hcs, hcidx]
    exact container_partition c.cfg _ c.idx c.slides hclt' hclt hcne'
  · have hmidx := mgo_idx m ((m.idx : Int) + d) hm2
    simp only [hmidx]
    exact multiroot_partition m _ hm2 hmlt hmlt' hmne'

theorem advance_state_partition_witness :
    (2 ≤ cEx3.slides.length ∧ cEx3.idx < cEx3.slides.length ∧
      2 ≤ mEx3.slides.length ∧ mEx3.idx < mEx3.slides.length) ∧
    ((Finset.range cEx3.slides.length).filter
        (fun i => cstate ((cgo cEx3 ((cEx3.idx : Int) + 1)).slides.getD i dC)
          = .Active)).card = 1 ∧
    ((Finset.range mEx3.slides.length).filter
        (fun i => mstate ((mgo mEx3 ((mEx3.idx : Int) + 1)).slides.getD i dM)
          = .Active)).card = 1 := by
  have h := advance_state_partition cEx3 mEx3 1 (Or.inl rfl) (by decide)
    (by decide) (by decide) (by decide)
  exact ⟨⟨by decide, by decide, by decide, by decide⟩, h.1.1, h.2.1⟩

/-! ### One-shot exit-callback bookkeeping -/

/-- The callback-bookkeeping invariant: the ids of live listeners and of
already-fired callbacks are jointly distinct and all below the fresh-id
counter; and the active index is in range whenever there are slides. -/
def cInv (c : CCar) : Prop :=
  ((c.listeners.map Prod.snd) ++ c.fired).Nodup ∧
  (∀ x ∈ (c.listeners.map Prod.snd) ++ c.fired, x < c.nextCb) ∧
  (c.slides.length ≤ 1 ∨ c.idx < c.slides.length)

theorem cInv_init (cfg : Config) (raw : List CSlide) :
    cInv (cfirstUpdated cfg raw) := by
  refine ⟨List.nodup_nil, fun x hx => ?_, ?_⟩
  · simp [cfirstUpdated] at hx
  · rcases le_or_lt raw.length 1 with h | h
    · exact Or.inl (by simpa [cfirstUpdated, initContainerMode,
        length_mapIdxF] using h)
    · refine Or.inr ?_
      simp only [cfirstUpdated, initContainerMode, length_mapIdxF]
      omega

theorem cInv_cgo (c : CCar) (n : Int)
    (hn : n = (c.idx : Int) + 1 ∨ n = (c.idx : Int) - 1) (h : cInv c) :
    cInv (cgo c n) := by
  obtain ⟨hnd, hbd, hix⟩ := h
  rcases le_or_lt c.slides.length 1 with hle | hgt
  · rw [cgo_noop c n hle]
    exact ⟨hnd, hbd, Or.inl hle⟩
  · have h2 : 2 ≤ c.slides.length := hgt
    have hlt : c.idx < c.slides.length := by
      rcases hix with hix | hix
      · omega
      · exact hix
    obtain ⟨hl, hcb⟩ := cgo_listeners c n h2 hlt
    have hidx := cgo_idx c n h2
    have hidx' : (cgo c n).idx < c.slides.length := by
      rcases hn with rfl | rfl
      · rw [hidx]
        exact (adv_target c.slides.length c.idx 1 (Or.inl rfl) h2 hlt).1
      · rw [hidx]
        exact (adv_target c.slides.length c.idx (-1) (Or.inr rfl) h2 hlt).1
    have hslen := cgo_length c n
    refine ⟨?_, ?_, Or.inr (by rw [hslen]; exact hidx')⟩
    · rw [hl]
      have hshape : ((c.listeners ++ [(c.idx, c.nextCb)]).map Prod.snd)
          ++ (cgo c n).fired
          = (c.listeners.map Prod.snd) ++ c.nextCb :: (cgo c n).fired := by
        simp
      rw [hshape]
      rw [List.nodup_middle]
      have hfired : (cgo c n).fired = c.fired := by
        have hnle : ¬ (c.slides.length ≤ 1) := by omega
        simp [cgo, hnle]
      rw [hfired, List.nodup_cons]
      refine ⟨fun hmem => ?_, hnd⟩
      exact absurd (hbd c.nextCb hmem) (by omega)
    · intro x hx
      rw [hl] at hx
      have hfired : (cgo c n).fired = c.fired := by
        have hnle : ¬ (c.slides.length ≤ 1) := by omega
        simp [cgo, hnle]
      rw [hfired] at hx
      rw [hcb]
      simp only [List.map_append, List.map_cons, List.map_nil,
        List.append_assoc, List.mem_append, List.mem_cons,
        List.not_mem_nil, or_false] at hx
      rcases hx with hx | hx | hx
      · have := hbd x (by simp [hx])
        omega
      · omega
      · have := hbd x (by simp [hx])
        omega

theorem perm_shuffle (A B F L : List Nat) (h : List.Perm (B ++ A) L) :
    List.Perm (A ++ (F ++ B)) (L ++ F) := by
  have h1 : List.Perm (A ++ (F ++ B)) (A ++ (B ++ F)) :=
    List.Perm.append_left A List.perm_append_comm
  have h2 : List.Perm (A ++ (B ++ F)) ((B ++ A) ++ F) := by
    rw [← List.append_assoc]
    exact List.Perm.append_right F List.perm_append_comm
  exact (h1.trans h2).trans (List.Perm.append_right F h)

theorem cInv_fire (c : CCar) (i : Nat) (p : TProp) (h : cInv c) :
    cInv (fireTransitionEnd c i p) := by
  obtain ⟨hnd, hbd, hix⟩ := h
  cases p with
  | otherProp => exact ⟨hnd, hbd, hix⟩
  | transform =>
    cases hhe : (c.listeners.filter (fun l => l.1 == i)).isEmpty with
    | true =>
      have : fireTransitionEnd c i .transform = c := by
        unfold fireTransitionEnd
        simp [hhe]
      rw [this]
      exact ⟨hnd, hbd, hix⟩
    | false =>
      rw [fireTransitionEnd_transform_eq c i hhe]
      have hfp := List.filter_append_perm (fun l => l.1 == i) c.listeners
      have hBA : List.Perm
          (((c.listeners.filter (fun l => l.1 == i)).map Prod.snd)
            ++ ((c.listeners.filter (fun l => !(l.1 == i))).map Prod.snd))
          (c.listeners.map Prod.snd) := by
        rw [← List.map_append]
        exact List.Perm.map Prod.snd hfp
      have hperm : List.Perm
          (((c.listeners.filter (fun l => !(l.1 == i))).map Prod.snd)
            ++ (c.fired
              ++ (c.listeners.filter (fun l => l.1 == i)).map Prod.snd))
          ((c.listeners.map Prod.snd) ++ c.fired) :=
        perm_shuffle _ _ _ _ hBA
      refine ⟨hperm.symm.nodup hnd, ?_, ?_⟩
      · intro x hx
        exact hbd x (hperm.mem_iff.mp hx)
      · rcases hix with hix | hix
        · exact Or.inl (by simpa [length_modifyAt] using hix)
        · exact Or.inr (by simpa [length_modifyAt] using hix)

theorem cInv_run (c : CCar) (ops : List COp) (h : cInv c) :
    cInv (crun c ops) := by
  induction ops generalizing c with
  | nil => exact h
  | cons op rest ih =>
    refine ih (cstep c op) ?_
    cases op with
    | goNextOp => exact cInv_cgo c _ (Or.inl rfl) h
    | goPrevOp => exact cInv_cgo c _ (Or.inr rfl) h
    | tendOp i p => exact cInv_fire c i p h

theorem fire_unbinds (c : CCar) (i : Nat) :
    (fireTransitionEnd c i .transform).listeners.filter
      (fun l => l.1 == i) = [] := by
  cases hhe : (c.listeners.filter (fun l => l.1 == i)).isEmpty with
  | true =>
    have heq : fireTransitionEnd c i .transform = c := by
      unfold fireTransitionEnd
      simp [hhe]
    rw [heq]
    exact List.isEmpty_iff.mp hhe
  | false =>
    rw [fireTransitionEnd_transform_eq c i hhe]
    rw [List.filter_filter]
    have hfalse : ∀ l : Nat × Nat, ((l.1 == i) && !(l.1 == i)) = false := by
      intro l
      cases l.1 == i <;> rfl
    simp only [hfalse]
    exact List.filter_false _

/-- Claim C6: exit-callback discipline in container mode. After any event
sequence (advances and transition events) from first render: the live
listener ids are pairwise distinct and each advance binds exactly one fresh
callback to the outgoing slide, so there is never more than one live
callback per exit; the set of callback executions is duplicate-free (each
one-shot callback fires at most once); firing the transform `transitionend`
on a slide sets its opacity to 0 and `aria-hidden` and unbinds every
callback bound to it; and a non-transform transition event is ignored. -/
theorem exit_callback_one_shot (cfg : Config) (raw : List CSlide)
    (ops : List COp) :
    let c := crun (cfirstUpdated cfg raw) ops
    (c.listeners.map Prod.snd).Nodup ∧
    c.fired.Nodup ∧
    (2 ≤ c.slides.length →
      (cnext c).listeners = c.listeners ++ [(c.idx, c.nextCb)] ∧
      (cnext c).nextCb = c.nextCb + 1) ∧
    (∀ i, (fireTransitionEnd c i .transform).listeners.filter
      (fun l => l.1 == i) = []) ∧
    (∀ i, i < c.slides.length →
      (c.listeners.filter (fun l => l.1 == i)).isEmpty = false →
      ((fireTransitionEnd c i .transform).slides.getD i dC).opacity = 0 ∧
      ((fireTransitionEnd c i .transform).slides.getD i dC).ariaHidden
        = true) ∧
    (∀ i, fireTransitionEnd c i .otherProp = c) := by
  intro c
  obtain ⟨hnd, hbd, hix⟩ : cInv c :=
    cInv_run (cfirstUpdated cfg raw) ops (cInv_init cfg raw)
  refine ⟨hnd.of_append_left, hnd.of_append_right, ?_, fire_unbinds c, ?_,
    fun i => rfl⟩
  · intro h2
    have hlt : c.idx < c.slides.length := by
      rcases hix with hix | hix
      · omega
      · exact hix
    exact cgo_listeners c _ h2 hlt
  · intro i hi hne
    rw [fireTransitionEnd_transform_eq c i hne]
    have hget := getD_modifyAt_self
      (fun s : CSlide => { s with opacity := 0, ariaHidden := true })
      i c.slides dC hi
    exact ⟨by rw [hget], by rw [hget]⟩

theorem exit_callback_one_shot_witness :
    (2 ≤ (crun (cfirstUpdated cfgEx [dC, dC]) [COp.goNextOp]).slides.length)
      ∧
    ((crun (cfirstUpdated cfgEx [dC, dC]) [COp.goNextOp]).listeners.map
      Prod.snd).Nodup ∧
    (cnext (crun (cfirstUpdated cfgEx [dC, dC]) [COp.goNextOp])).listeners
      = (crun (cfirstUpdated cfgEx [dC, dC]) [COp.goNextOp]).listeners
        ++ [((crun (cfirstUpdated cfgEx [dC, dC]) [COp.goNextOp]).idx,
             (crun (cfirstUpdated cfgEx [dC, dC]) [COp.goNextOp]).nextCb)]
      := by
  have h := exit_callback_one_shot cfgEx [dC, dC] [COp.goNextOp]
  exact ⟨by decide, h.1, (h.2.2.1 (by decide)).1⟩

end DevconCarousel
